import Mathlib

/-!
# hiddifyWRT extension: the cancellable background task and its supervisor

A shallow embedding of `hiddify_extension/extension.go`.

* The receiver `e *HiddifyWRT` becomes an explicit state `HiddifyWRT` that is
  passed through every operation.
* Every goroutine started by `go e.backgroundTask(ctx)` is an entry of
  `HiddifyWRT.tasks`; its position in that list is the identity of its context,
  and a `context.CancelFunc` is the position of the context it cancels.
* `backgroundTask` is a small-step machine: one call of
  `HiddifyWRT.backgroundTask` executes the next statement of one goroutine.
  `SubmitData`, `stop` and `Close` run on the single control path and are one
  step each.
* Go `int` arithmetic wraps at the width of the platform (`Host.intBits`).
-/

namespace HiddifyExtension

/-! ## Console text -/

/-- The three module-level colour handles `red`, `green`, `yellow`. -/
inductive Color where
  | red
  | green
  | yellow
  deriving DecidableEq, Repr

/-- One operand of a `Sprint` call: the source passes string literals and the
loop counter. -/
inductive Arg where
  | str (s : String)
  | int (n : Int)
  deriving DecidableEq, Repr

/-- The value of `c.Sprint(args...)`: the operands rendered in colour `c`.
The rendering itself belongs to the colour library and is kept symbolic. -/
structure Text where
  color : Color
  args : List Arg
  deriving DecidableEq, Repr

/-- The call `c.Sprint(args...)`. -/
def Color.Sprint (c : Color) (args : List Arg) : Text := ⟨c, args⟩

/-- One console entry: the operands of one `addAndUpdateConsole` call (or of
the initial `+` concatenation). -/
abbrev Line := List Text

/-- Line 43: `red.Sprint(count), yellow.Sprint(" Background task ", count, " working...")`. -/
def progressLine (count : Int) : Line :=
  [Color.red.Sprint [Arg.int count],
   Color.yellow.Sprint [Arg.str " Background task ", Arg.int count, Arg.str " working..."]]

/-- Line 40: `red.Sprint("Background Task Canceled")`. -/
def canceledLine : Line :=
  [Color.red.Sprint [Arg.str "Background Task Canceled"]]

/-- Line 47: `green.Sprint("Background Task Finished Successfully")`. -/
def finishedLine : Line :=
  [Color.green.Sprint [Arg.str "Background Task Finished Successfully"]]

/-- Line 110: `yellow.Sprint("Welcome to ") + green.Sprint("hiddifyWRT\n")`. -/
def welcomeLine : Line :=
  [Color.yellow.Sprint [Arg.str "Welcome to "], Color.green.Sprint [Arg.str "hiddifyWRT\n"]]

/-- The progress lines numbered `1, 2, ..., k`, in that order. -/
def progressLines (k : Nat) : List Line :=
  (List.range k).map (fun j => progressLine ((j : Int) + 1))

/-! ## Data model -/

/-- `HiddifyWRTData`. -/
structure HiddifyWRTData where
  Count : Int
  deriving DecidableEq, Repr

/-- The `map[string]string` of a form submission. -/
abbrev FieldMap := List (String × String)

/-- A Go `error`: `none` is `nil`, `some msg` an error whose `Error()` is `msg`. -/
abbrev Error := Option String

/-- What `extension.go` takes from outside the file: the button constants of
the host's `ui` package, the width of `int`, the form validation
`setFormData` and the result of the host's `ShowMessage`.

`setFormData` is a method of this package that is declared outside
`extension.go`; it is a parameter here. It receives the current data and the
field map and gives back the data it leaves behind together with its error.

The four button constants are the `case` labels of one `switch`, which Go
only compiles when they are pairwise different. -/
structure Host where
  ButtonDialogOk : String
  ButtonDialogClose : String
  ButtonCancel : String
  ButtonSubmit : String
  buttons_nodup : [ButtonDialogOk, ButtonDialogClose, ButtonCancel, ButtonSubmit].Nodup
  intBits : Nat
  intBits_eq : intBits = 32 ∨ intBits = 64
  setFormData : HiddifyWRTData → FieldMap → HiddifyWRTData × Error
  ShowMessage : String → String → Error

/-- The largest value of the host's `int`. -/
def Host.maxInt (h : Host) : Int := 2 ^ (h.intBits - 1) - 1

/-- The smallest value of the host's `int`. -/
def Host.minInt (h : Host) : Int := -(2 ^ (h.intBits - 1))

/-- Two's-complement wrap-around of an `int` result. -/
def Host.wrap (h : Host) (x : Int) : Int :=
  (x + 2 ^ (h.intBits - 1)) % 2 ^ h.intBits - 2 ^ (h.intBits - 1)

/-- Where a `backgroundTask` goroutine stands. -/
inductive PC where
  /-- Line 36, about to evaluate `count <= e.Base.Data.Count`. -/
  | forCond
  /-- Line 37, waiting in the `select`. -/
  | select
  /-- Line 39, the `ctx.Done()` case was chosen, about to run `e.cancel = nil`. -/
  | caseDone
  /-- Line 40, about to append the cancellation line. -/
  | caseDoneLog
  /-- Line 43, the timer case was chosen, about to append the progress line. -/
  | caseTimer
  /-- Line 46, the loop is over, about to run `e.cancel = nil`. -/
  | afterLoop
  /-- Line 47, about to append the completion line. -/
  | afterLoopLog
  /-- The function has returned. -/
  | returned
  deriving DecidableEq, Repr

/-- One `backgroundTask` goroutine together with its context.
`done` says that the context was cancelled (`ctx.Done()` is closed).
`out` is bookkeeping: the lines this goroutine itself has appended. -/
structure Task where
  pc : PC
  count : Int
  done : Bool
  out : List Line
  deriving DecidableEq, Repr

/-- The goroutine `go e.backgroundTask(ctx)` starts: fresh context, `count := 1`. -/
def Task.fresh : Task := ⟨PC.forCond, 1, false, []⟩

/-- The receiver `HiddifyWRT`. `Data` is `Base.Data`; `cancel` holds the
position in `tasks` of the context its `CancelFunc` cancels; `messages`
records the dialogs shown through the host's `ShowMessage`. -/
structure HiddifyWRT where
  Data : HiddifyWRTData
  cancel : Option Nat
  console : List Line
  tasks : List Task
  messages : List (String × String)
  deriving DecidableEq, Repr

namespace HiddifyWRT

/-- Modelled from the spec: `addAndUpdateConsole` is declared outside
`extension.go`; the console is an append-only ordered sequence of lines and
every call appends one. -/
def addAndUpdateConsole (e : HiddifyWRT) (line : Line) : HiddifyWRT :=
  { e with console := e.console ++ [line] }

/-- Calling a `CancelFunc`: the context at position `h` becomes done. -/
def cancelCtx (e : HiddifyWRT) (h : Nat) : HiddifyWRT :=
  match e.tasks[h]? with
  | some t => { e with tasks := e.tasks.set h { t with done := true } }
  | none => e

/-- Write back the goroutine at position `i`. -/
def setTask (e : HiddifyWRT) (i : Nat) (t : Task) : HiddifyWRT :=
  { e with tasks := e.tasks.set i t }

/-- The host's `ShowMessage(title, msg)`: the dialog is recorded and the
host's result returned. -/
def ShowMessage (host : Host) (e : HiddifyWRT) (title msg : String) : HiddifyWRT × Error :=
  ({ e with messages := e.messages ++ [(title, msg)] }, host.ShowMessage title msg)

/-- The next statement of goroutine `i` of `backgroundTask` (lines 35-48).

In the `select`, a closed `ctx.Done()` is ready at once while the timer needs
a second, so a goroutine that finds its context cancelled takes the first
case; otherwise it waits and the step is the timer firing. A cancellation
that arrives during the wait is a `cancelCtx` before this step. -/
def backgroundTask (host : Host) (i : Nat) (e : HiddifyWRT) : HiddifyWRT :=
  match e.tasks[i]? with
  | none => e
  | some t =>
    match t.pc with
    | PC.forCond =>
      if t.count ≤ e.Data.Count then e.setTask i { t with pc := PC.select }
      else e.setTask i { t with pc := PC.afterLoop }
    | PC.select =>
      if t.done then e.setTask i { t with pc := PC.caseDone }
      else e.setTask i { t with pc := PC.caseTimer }
    | PC.caseDone =>
      { e with cancel := none }.setTask i { t with pc := PC.caseDoneLog }
    | PC.caseDoneLog =>
      (e.addAndUpdateConsole canceledLine).setTask i
        { t with pc := PC.returned, out := t.out ++ [canceledLine] }
    | PC.caseTimer =>
      (e.addAndUpdateConsole (progressLine t.count)).setTask i
        { t with pc := PC.forCond, count := host.wrap (t.count + 1),
                 out := t.out ++ [progressLine t.count] }
    | PC.afterLoop =>
      { e with cancel := none }.setTask i { t with pc := PC.afterLoopLog }
    | PC.afterLoopLog =>
      (e.addAndUpdateConsole finishedLine).setTask i
        { t with pc := PC.returned, out := t.out ++ [finishedLine] }
    | PC.returned => e

/-- `stop` (lines 84-90). -/
def stop (e : HiddifyWRT) : HiddifyWRT × Error :=
  match e.cancel with
  | some h => ({ e.cancelCtx h with cancel := none }, none)
  | none => (e, none)

/-- `Close` (lines 93-95). -/
def Close (e : HiddifyWRT) : HiddifyWRT × Error :=
  e.stop

/-- `SubmitData` (lines 51-81). -/
def SubmitData (host : Host) (button : String) (data : FieldMap) (e : HiddifyWRT) :
    HiddifyWRT × Error :=
  if button = host.ButtonDialogOk ∨ button = host.ButtonDialogClose then
    (e, none)
  else if button = host.ButtonCancel then
    e.stop
  else if button = host.ButtonSubmit then
    match host.setFormData e.Data data with
    | (d, some err) =>
      ((ShowMessage host { e with Data := d } "Invalid data" err).1, some err)
    | (d, none) =>
      let e1 : HiddifyWRT := { e with Data := d }
      let e2 : HiddifyWRT :=
        match e1.cancel with
        | some h => e1.cancelCtx h
        | none => e1
      ({ e2 with cancel := some e2.tasks.length, tasks := e2.tasks ++ [Task.fresh] }, none)
  else
    ShowMessage host e ("Button " ++ button ++ " is pressed")
      "No action is defined for this button"

/-- Goroutine `i` runs `n` statements with nothing else in between. -/
def runTask (host : Host) (i : Nat) : Nat → HiddifyWRT → HiddifyWRT
  | 0, e => e
  | n + 1, e => runTask host i n (backgroundTask host i e)

end HiddifyWRT

/-- `NewHiddifyWRT` (lines 103-112). -/
def NewHiddifyWRT : HiddifyWRT :=
  { Data := { Count := 4 }
    cancel := none
    console := [welcomeLine]
    tasks := []
    messages := [] }

/-- One step of the whole extension: a call on the control path or the next
statement of one goroutine. -/
inductive Action where
  | submitData (button : String) (data : FieldMap)
  | close
  | task (i : Nat)
  deriving DecidableEq, Repr

/-- The state after one action. -/
def step (host : Host) (e : HiddifyWRT) : Action → HiddifyWRT
  | Action.submitData button data => (e.SubmitData host button data).1
  | Action.close => e.Close.1
  | Action.task i => e.backgroundTask host i

/-- The state after a sequence of actions, in order. -/
def run (host : Host) (acts : List Action) (e : HiddifyWRT) : HiddifyWRT :=
  acts.foldl (step host) e

/-- A goroutine that has not returned and whose context was not cancelled. -/
def Task.active (t : Task) : Bool :=
  t.pc != PC.returned && !t.done

/-- The number of active, un-cancelled goroutines. -/
def HiddifyWRT.activeTasks (e : HiddifyWRT) : Nat :=
  (e.tasks.filter Task.active).length

/-! ## A concrete host -/

/-- Decimal value of a string of digits, `none` when a character is not a digit
or the string is empty. -/
def parseDigits : List Char → Option Nat
  | [] => none
  | cs => cs.foldl (fun acc c =>
      match acc with
      | some n => if c.isDigit then some (n * 10 + (c.toNat - 48)) else none
      | none => none) (some 0)

/-- Modelled from the spec: `setFormData` is declared outside `extension.go`;
the field `iterations` must be parseable as a non-negative integer, which
becomes `Count`; anything else is a validation error and the data is kept. -/
def setFormData (d : HiddifyWRTData) (data : FieldMap) : HiddifyWRTData × Error :=
  match data.lookup "iterations" with
  | some v =>
    match parseDigits v.toList with
    | some n => if (n : Int) ≤ 2 ^ 63 - 1 then ({ Count := n }, none)
                else (d, some "iterations: value out of range")
    | none => (d, some "iterations: invalid syntax")
  | none => (d, some "iterations: missing")

/-- Modelled from the spec: a 64-bit host whose button identifiers are the ones
the spec lists (`submit`, `cancel`, `dialog-ok`, `dialog-close`), whose
`ShowMessage` always succeeds and whose validation is `setFormData` above. It
serves the concrete runs; the general theorems hold for every `Host`. -/
def host64 : Host :=
  { ButtonDialogOk := "dialog-ok"
    ButtonDialogClose := "dialog-close"
    ButtonCancel := "cancel"
    ButtonSubmit := "submit"
    buttons_nodup := by decide
    intBits := 64
    intBits_eq := Or.inr rfl
    setFormData := setFormData
    ShowMessage := fun _ _ => none }

/-! ## Vocabulary of the proofs -/

/-- A state in which goroutine `i` is `t` and the console has grown by `ls`. -/
def HiddifyWRT.withTask (e : HiddifyWRT) (i : Nat) (t : Task) (ls : List Line) : HiddifyWRT :=
  { e with console := e.console ++ ls, tasks := e.tasks.set i t }

/-- The last line of a task that appended `k` progress lines when its bound
allows `n`. -/
def HiddifyWRT.terminalLine (n k : Nat) : Line :=
  if k = n then finishedLine else canceledLine

/-- Goroutine `i` is inside the loop, un-cancelled, the bound is the largest
`int`, and no completion line has been appended so far. -/
def HiddifyWRT.LoopsForever (host : Host) (i : Nat) (e : HiddifyWRT) : Prop :=
  e.Data.Count = host.maxInt ∧ finishedLine ∉ e.console ∧
    ∃ t, e.tasks[i]? = some t ∧ t.done = false ∧ t.count ≤ host.maxInt ∧
      (t.pc = PC.forCond ∨ t.pc = PC.select ∨ t.pc = PC.caseTimer)

/-- The state after `NewHiddifyWRT()` and one submission of the largest 64-bit
`int` as `iterations`. -/
def startedWithMaxInt : HiddifyWRT :=
  run host64 [Action.submitData "submit" [("iterations", "9223372036854775807")]] NewHiddifyWRT

/-- Goroutine `i` runs alone; with `timing = some c` its context is cancelled
after `c` of its statements, with `timing = none` never. `fuel` statements
follow. -/
def HiddifyWRT.runTimed (host : Host) (i : Nat) (timing : Option Nat) (fuel : Nat) (e : HiddifyWRT) :
    HiddifyWRT :=
  match timing with
  | none => runTask host i fuel e
  | some c => runTask host i fuel ((runTask host i c e).cancelCtx i)

/-! ## Arithmetic of the host's `int` -/

theorem Host.wrap_eq_self (host : Host) (x : Int) (h1 : host.minInt ≤ x) (h2 : x ≤ host.maxInt) :
    host.wrap x = x := by
  rcases host.intBits_eq with h | h <;>
    simp only [Host.wrap, Host.maxInt, Host.minInt, h] at * <;> norm_num at * <;> omega

theorem Host.wrap_le_maxInt (host : Host) (x : Int) : host.wrap x ≤ host.maxInt := by
  rcases host.intBits_eq with h | h <;>
    simp only [Host.wrap, Host.maxInt, h] <;> norm_num <;> omega

theorem Host.minInt_le_zero (host : Host) : host.minInt ≤ 0 := by
  rcases host.intBits_eq with h | h <;> simp only [Host.minInt, h] <;> norm_num

theorem Host.four_le_maxInt (host : Host) : 4 ≤ host.maxInt := by
  rcases host.intBits_eq with h | h <;> simp only [Host.maxInt, h] <;> norm_num

/-! ## Console lines -/

theorem progressLines_succ (k : Nat) :
    progressLines (k + 1) = progressLines k ++ [progressLine ((k : Int) + 1)] := by
  simp [progressLines, List.range_succ]

theorem progressLines_zero : progressLines 0 = [] := rfl

theorem progressLine_ne_finishedLine (c : Int) : progressLine c ≠ finishedLine := by
  simp [progressLine, finishedLine]

theorem progressLine_ne_canceledLine (c : Int) : progressLine c ≠ canceledLine := by
  simp [progressLine, canceledLine]

theorem progressLine_inj {a b : Int} (h : progressLine a = progressLine b) : a = b := by
  simpa [progressLine, Color.Sprint] using h

namespace HiddifyWRT

/-! ## Statements of `backgroundTask`, one at a time -/

theorem runTask_add (host : Host) (i a b : Nat) (e : HiddifyWRT) :
    runTask host i (a + b) e = runTask host i b (runTask host i a e) := by
  induction a generalizing e with
  | zero => simp [runTask]
  | succ a ih => rw [Nat.add_right_comm]; simp [runTask, ih]

theorem runTask_succ (host : Host) (i n : Nat) (e : HiddifyWRT) :
    runTask host i (n + 1) e = backgroundTask host i (runTask host i n e) := by
  rw [runTask_add]; rfl

theorem set_of_getElem? {α : Type} {l : List α} {i : Nat} {a : α} (h : l[i]? = some a) :
    l.set i a = l := by
  apply List.ext_getElem?
  intro j
  rw [List.getElem?_set]
  split
  · subst_vars
    obtain ⟨hi, _⟩ := List.getElem?_eq_some.1 h
    simp [hi, h]
  · rfl

theorem withTask_self (e : HiddifyWRT) (i : Nat) (t : Task) (h : e.tasks[i]? = some t) :
    e.withTask i t [] = e := by
  cases e
  simp only [withTask, List.append_nil] at *
  congr
  exact set_of_getElem? h

theorem withTask_task (e : HiddifyWRT) (i : Nat) (t : Task) (ls : List Line)
    (h : i < e.tasks.length) : (e.withTask i t ls).tasks[i]? = some t := by
  simp [withTask, h]

theorem step_withTask (host : Host) (e : HiddifyWRT) (i : Nat) (t : Task) (ls : List Line)
    (h : i < e.tasks.length) :
    backgroundTask host i (e.withTask i t ls) =
      match t.pc with
      | PC.forCond =>
        if t.count ≤ e.Data.Count then e.withTask i { t with pc := PC.select } ls
        else e.withTask i { t with pc := PC.afterLoop } ls
      | PC.select =>
        if t.done then e.withTask i { t with pc := PC.caseDone } ls
        else e.withTask i { t with pc := PC.caseTimer } ls
      | PC.caseDone =>
        { e with cancel := none }.withTask i { t with pc := PC.caseDoneLog } ls
      | PC.caseDoneLog =>
        e.withTask i { t with pc := PC.returned, out := t.out ++ [canceledLine] }
          (ls ++ [canceledLine])
      | PC.caseTimer =>
        e.withTask i { t with pc := PC.forCond, count := host.wrap (t.count + 1),
                              out := t.out ++ [progressLine t.count] }
          (ls ++ [progressLine t.count])
      | PC.afterLoop =>
        { e with cancel := none }.withTask i { t with pc := PC.afterLoopLog } ls
      | PC.afterLoopLog =>
        e.withTask i { t with pc := PC.returned, out := t.out ++ [finishedLine] }
          (ls ++ [finishedLine])
      | PC.returned => e.withTask i t ls := by
  unfold backgroundTask
  rw [withTask_task e i t ls h]
  obtain ⟨pc, count, done, out⟩ := t
  cases pc <;> simp only [withTask, setTask, addAndUpdateConsole, List.set_set, List.append_assoc]

/-! ## Uninterrupted runs of one goroutine -/

theorem runTask_loop (host : Host) (e : HiddifyWRT) (i : Nat) (h : i < e.tasks.length)
    (d : Bool) (o : List Line) (k : Nat) (hd : k ≠ 0 → d = false)
    (hk : k ≠ 0 → (k : Int) ≤ e.Data.Count) (hm : (k : Int) < host.maxInt) :
    runTask host i (3 * k) (e.withTask i ⟨PC.forCond, 1, d, o⟩ []) =
      e.withTask i ⟨PC.forCond, (k : Int) + 1, d, o ++ progressLines k⟩ (progressLines k) := by
  induction k with
  | zero => simp [runTask, progressLines_zero]
  | succ k ih =>
    have hd0 : d = false := hd (Nat.succ_ne_zero k)
    subst hd0
    have h1 : ((k : Int) + 1) ≤ e.Data.Count := by
      have := hk (Nat.succ_ne_zero k); push_cast at this; exact this
    have h2 : ((k : Int) + 1) < host.maxInt := by push_cast at hm; exact hm
    have hw : host.wrap ((k : Int) + 1 + 1) = (k : Int) + 1 + 1 := by
      apply Host.wrap_eq_self
      · have := host.minInt_le_zero; omega
      · omega
    rw [show 3 * (k + 1) = 3 * k + 3 by ring, runTask_add,
      ih (fun _ => rfl) (fun _ => by omega) (by omega)]
    simp [runTask, step_withTask, h, h1, hw, progressLines_succ]

theorem runTask_finish (host : Host) (e : HiddifyWRT) (i : Nat) (h : i < e.tasks.length)
    (c : Int) (d : Bool) (o ls : List Line) (hc : e.Data.Count < c) :
    runTask host i 3 (e.withTask i ⟨PC.forCond, c, d, o⟩ ls) =
      { e with cancel := none }.withTask i ⟨PC.returned, c, d, o ++ [finishedLine]⟩
        (ls ++ [finishedLine]) := by
  have hc2 : ¬ c ≤ e.Data.Count := by omega
  simp only [runTask, step_withTask, h, hc2, if_false]

theorem runTask_cancel (host : Host) (e : HiddifyWRT) (i : Nat) (h : i < e.tasks.length)
    (c : Int) (o ls : List Line) (hc : c ≤ e.Data.Count) :
    runTask host i 4 (e.withTask i ⟨PC.forCond, c, true, o⟩ ls) =
      { e with cancel := none }.withTask i ⟨PC.returned, c, true, o ++ [canceledLine]⟩
        (ls ++ [canceledLine]) := by
  simp only [runTask, step_withTask, h, hc, if_true]

theorem runTask_returned (host : Host) (e : HiddifyWRT) (i : Nat) (h : i < e.tasks.length)
    (c : Int) (d : Bool) (o ls : List Line) (m : Nat) :
    runTask host i m (e.withTask i ⟨PC.returned, c, d, o⟩ ls) =
      e.withTask i ⟨PC.returned, c, d, o⟩ ls := by
  induction m with
  | zero => rfl
  | succ m ih => rw [runTask_succ, ih, step_withTask host e i _ _ h]

/-- An uninterrupted goroutine whose bound is `n` below the largest `int`
returns after `3 * n + 3` statements. -/
theorem runTask_complete (host : Host) (e : HiddifyWRT) (i : Nat) (h : i < e.tasks.length)
    (o : List Line) (n m : Nat) (hlo : n ≠ 0 → (n : Int) ≤ e.Data.Count)
    (hhi : e.Data.Count < (n : Int) + 1) (hmax : (n : Int) < host.maxInt)
    (hm : 3 * n + 3 ≤ m) :
    runTask host i m (e.withTask i ⟨PC.forCond, 1, false, o⟩ []) =
      { e with cancel := none }.withTask i
        ⟨PC.returned, (n : Int) + 1, false, o ++ progressLines n ++ [finishedLine]⟩
        (progressLines n ++ [finishedLine]) := by
  obtain ⟨r, rfl⟩ := Nat.exists_eq_add_of_le hm
  rw [runTask_add, runTask_add, runTask_loop host e i h false o n (fun _ => rfl) hlo hmax,
    runTask_finish host e i h _ _ _ _ hhi,
    runTask_returned host { e with cancel := none } i h]

theorem cancelCtx_withTask (e : HiddifyWRT) (i : Nat) (h : i < e.tasks.length)
    (t : Task) (ls : List Line) :
    (e.withTask i t ls).cancelCtx i = e.withTask i { t with done := true } ls := by
  unfold cancelCtx
  rw [withTask_task e i t ls h]
  simp [withTask, List.set_set]

theorem runTask_stable (host : Host) (i : Nat) (e' : HiddifyWRT) (h : i < e'.tasks.length)
    (x : HiddifyWRT) (a fuel : Nat) (c : Int) (d : Bool) (o ls : List Line)
    (ha : runTask host i a x = e'.withTask i ⟨PC.returned, c, d, o⟩ ls) (hle : a ≤ fuel) :
    runTask host i fuel x = e'.withTask i ⟨PC.returned, c, d, o⟩ ls := by
  obtain ⟨r, rfl⟩ := Nat.exists_eq_add_of_le hle
  rw [runTask_add, ha, runTask_returned host e' i h]

/-- Where a task ends when the signal is sent after `c` of its statements. -/
theorem runTask_cancelled_after (host : Host) (e : HiddifyWRT) (i : Nat)
    (h : i < e.tasks.length) (n : Nat) (hlo : n ≠ 0 → (n : Int) ≤ e.Data.Count)
    (hhi : e.Data.Count < (n : Int) + 1) (hmax : (n : Int) < host.maxInt) (c : Nat) :
    ∃ k : Nat, k ≤ n ∧ ∀ fuel : Nat, 5 ≤ fuel → ∃ cnt : Int,
      runTask host i fuel ((runTask host i c (e.withTask i Task.fresh [])).cancelCtx i) =
        { e with cancel := none }.withTask i
          ⟨PC.returned, cnt, true, progressLines k ++ [terminalLine n k]⟩
          (progressLines k ++ [terminalLine n k]) := by
  have hmin := host.minInt_le_zero
  have h' : i < ({ e with cancel := none } : HiddifyWRT).tasks.length := h
  by_cases hc : 3 * n ≤ c
  · -- the loop is over when the signal arrives
    refine ⟨n, le_refl n, fun fuel hf => ⟨(n : Int) + 1, ?_⟩⟩
    obtain ⟨j, rfl⟩ := Nat.exists_eq_add_of_le hc
    have hnot : ¬ ((n : Int) + 1 ≤ e.Data.Count) := by omega
    refine runTask_stable host i { e with cancel := none } h _ 5 fuel _ _ _ _ ?_ hf
    rw [runTask_add host i (3 * n) j, Task.fresh,
      runTask_loop host e i h false [] n (fun _ => rfl) hlo hmax]
    match j with
    | 0 =>
      simp only [runTask, step_withTask, cancelCtx_withTask, h, h', hnot, if_false]
      simp [terminalLine]
    | 1 =>
      simp only [runTask, step_withTask, cancelCtx_withTask, h, h', hnot, if_false]
      simp [terminalLine]
    | 2 =>
      simp only [runTask, step_withTask, cancelCtx_withTask, h, h', hnot, if_false]
      simp [terminalLine]
    | j + 3 =>
      rw [show j + 3 = 3 + j by omega, runTask_add host i 3 j,
        runTask_finish host e i h _ _ _ _ hhi,
        runTask_returned host { e with cancel := none } i h]
      simp only [runTask, step_withTask, cancelCtx_withTask, h, h']
      simp [terminalLine]
  · -- the signal arrives inside iteration `q + 1`
    have hq : c / 3 < n := by omega
    have hdm := Nat.div_add_mod c 3
    have hr : c % 3 < 3 := Nat.mod_lt _ (by decide)
    generalize c / 3 = q at hq hdm
    generalize c % 3 = r at hdm hr
    subst hdm
    have hqC : ((q : Int) + 1) ≤ e.Data.Count := by
      have := hlo (by omega); omega
    have hloop : runTask host i (3 * q) (e.withTask i Task.fresh []) = _ :=
      runTask_loop host e i h false [] q (fun _ => rfl) (fun _ => by omega) (by omega)
    have hw : host.wrap ((q : Int) + 1 + 1) = (q : Int) + 1 + 1 :=
      Host.wrap_eq_self host _ (by omega) (by omega)
    match r, hr with
    | 0, _ =>
      refine ⟨q, by omega, fun fuel hf => ⟨(q : Int) + 1, ?_⟩⟩
      have hne : ¬ q = n := by omega
      refine runTask_stable host i { e with cancel := none } h _ 5 fuel _ _ _ _ ?_ hf
      rw [Nat.add_zero, hloop]
      simp only [runTask, step_withTask, cancelCtx_withTask, h, h', hqC, if_true]
      simp [terminalLine, hne]
    | 1, _ =>
      refine ⟨q, by omega, fun fuel hf => ⟨(q : Int) + 1, ?_⟩⟩
      have hne : ¬ q = n := by omega
      refine runTask_stable host i { e with cancel := none } h _ 5 fuel _ _ _ _ ?_ hf
      rw [runTask_add host i (3 * q) 1, hloop]
      simp only [runTask, step_withTask, cancelCtx_withTask, h, h', hqC, if_true]
      simp [terminalLine, hne]
    | 2, _ =>
      refine ⟨q + 1, by omega, fun fuel hf => ⟨(q : Int) + 1 + 1, ?_⟩⟩
      refine runTask_stable host i { e with cancel := none } h _ 5 fuel _ _ _ _ ?_ hf
      rw [runTask_add host i (3 * q) 2, hloop]
      by_cases hlast : q + 1 = n
      · have hgt : ¬ ((q : Int) + 1 + 1 ≤ e.Data.Count) := by omega
        simp only [runTask, step_withTask, cancelCtx_withTask, h, h', hqC, hw, hgt, if_true,
          if_false, Bool.false_eq_true]
        subst hlast
        simp [terminalLine, progressLines_succ]
      · have hle : (q : Int) + 1 + 1 ≤ e.Data.Count := by
          have := hlo (by omega); omega
        simp only [runTask, step_withTask, cancelCtx_withTask, h, h', hqC, hw, hle, if_true,
          if_false, Bool.false_eq_true]
        simp [terminalLine, hlast, progressLines_succ]

/-! ## The largest `int` as loop bound -/

theorem loopsForever_step {host : Host} {i : Nat} {e : HiddifyWRT}
    (h : LoopsForever host i e) : LoopsForever host i (backgroundTask host i e) := by
  obtain ⟨hC, hf, t, ht, hd, hc, hpc⟩ := h
  obtain ⟨hi, _⟩ := List.getElem?_eq_some.1 ht
  rw [← withTask_self e i t ht, step_withTask host e i t [] hi]
  obtain ⟨pc, count, done, out⟩ := t
  simp only at hd hc hpc
  subst hd
  have hle : count ≤ e.Data.Count := by rw [hC]; exact hc
  rcases hpc with rfl | rfl | rfl
  · simp only [hle, if_true]
    exact ⟨hC, by simpa [withTask] using hf, _, withTask_task e i _ _ hi, rfl, hc, Or.inr (Or.inl rfl)⟩
  · simp only [Bool.false_eq_true, if_false]
    exact ⟨hC, by simpa [withTask] using hf, _, withTask_task e i _ _ hi, rfl, hc, Or.inr (Or.inr rfl)⟩
  · refine ⟨hC, ?_, _, withTask_task e i _ _ hi, rfl, host.wrap_le_maxInt _, Or.inl rfl⟩
    simp only [withTask, List.nil_append, List.mem_append, List.mem_singleton, not_or]
    exact ⟨hf, fun h => progressLine_ne_finishedLine _ h.symm⟩

theorem loopsForever_runTask {host : Host} {i : Nat} (n : Nat) :
    ∀ {e : HiddifyWRT}, LoopsForever host i e → LoopsForever host i (runTask host i n e) := by
  induction n with
  | zero => intro e h; exact h
  | succ n ih => intro e h; exact ih (loopsForever_step h)

/-! ## The button dispatch -/

theorem buttons_ne (host : Host) :
    host.ButtonCancel ≠ host.ButtonDialogOk ∧ host.ButtonCancel ≠ host.ButtonDialogClose ∧
    host.ButtonSubmit ≠ host.ButtonDialogOk ∧ host.ButtonSubmit ≠ host.ButtonDialogClose ∧
    host.ButtonSubmit ≠ host.ButtonCancel := by
  have h := host.buttons_nodup
  simp only [List.nodup_cons, List.mem_cons, List.mem_singleton, not_or, List.not_mem_nil,
    not_false_eq_true, List.nodup_nil, and_true] at h
  obtain ⟨⟨_, h1, h2⟩, ⟨h3, h4⟩, h5⟩ := h
  exact ⟨Ne.symm h1, Ne.symm h3, Ne.symm h2, Ne.symm h4, Ne.symm h5⟩

theorem SubmitData_cancel (host : Host) (data : FieldMap) (e : HiddifyWRT) :
    e.SubmitData host host.ButtonCancel data = e.stop := by
  obtain ⟨h1, h2, _⟩ := buttons_ne host
  simp [SubmitData, h1, h2]

theorem SubmitData_submit (host : Host) (data : FieldMap) (e : HiddifyWRT) :
    e.SubmitData host host.ButtonSubmit data =
      match host.setFormData e.Data data with
      | (d, some err) =>
        ((ShowMessage host { e with Data := d } "Invalid data" err).1, some err)
      | (d, none) =>
        let e1 : HiddifyWRT := { e with Data := d }
        let e2 : HiddifyWRT :=
          match e1.cancel with
          | some h => e1.cancelCtx h
          | none => e1
        ({ e2 with cancel := some e2.tasks.length, tasks := e2.tasks ++ [Task.fresh] }, none) := by
  obtain ⟨_, _, h3, h4, h5⟩ := buttons_ne host
  simp [SubmitData, h3, h4, h5]

theorem stop_withTask (e : HiddifyWRT) (i : Nat) (h : i < e.tasks.length)
    (t : Task) (ls : List Line) (hs : e.cancel = some i) :
    (e.withTask i t ls).stop =
      ({ e with cancel := none }.withTask i { t with done := true } ls, none) := by
  have hs' : (e.withTask i t ls).cancel = some i := hs
  unfold stop
  rw [hs']
  simp only [cancelCtx_withTask e i h]
  rfl

end HiddifyWRT

/-! ## The run that starts with the largest 64-bit `int` -/

theorem startedWithMaxInt_eq :
    startedWithMaxInt =
      { Data := { Count := 9223372036854775807 }, cancel := some 0, console := [welcomeLine],
        tasks := [Task.fresh], messages := [] } := by
  decide

theorem startedWithMaxInt_loopsForever :
    HiddifyWRT.LoopsForever host64 0 startedWithMaxInt := by
  rw [startedWithMaxInt_eq]
  refine ⟨by norm_num [Host.maxInt, host64], by decide, Task.fresh, rfl, rfl, ?_, Or.inl rfl⟩
  norm_num [Host.maxInt, host64, Task.fresh]

/-! ## C1 -/

/-- C1 as stated fails at the largest iteration count: on a 64-bit host, a
task started with `Count = 9223372036854775807` and never cancelled never
appends the "Background Task Finished Successfully" line, however long it
runs, because `count++` wraps around and `count <= Count` stays true. -/
theorem C1_counterexample_maxInt :
    ¬ ∃ fuel : Nat,
      finishedLine ∈ (HiddifyWRT.runTask host64 0 fuel startedWithMaxInt).console := by
  rintro ⟨fuel, h⟩
  exact (HiddifyWRT.loopsForever_runTask fuel startedWithMaxInt_loopsForever).2.1 h

/-- C1 (amended): for every iteration count `n` with `0 ≤ n` below the largest
`int`, a freshly started task `i` with `Count = n` that runs with nothing in
between has, after `3 * n + 3` statements and at every later moment, appended
to the console exactly the progress lines `1, ..., n` in order followed by one
"Background Task Finished Successfully" line; these are exactly the lines the
task itself has emitted, it has returned and was never cancelled. -/
theorem C1_uncancelled_task_output (host : Host) (e : HiddifyWRT) (i n m : Nat)
    (ht : e.tasks[i]? = some Task.fresh) (hn : e.Data.Count = n)
    (hmax : (n : Int) < host.maxInt) (hm : 3 * n + 3 ≤ m) :
    (HiddifyWRT.runTask host i m e).console = e.console ++ progressLines n ++ [finishedLine] ∧
      (HiddifyWRT.runTask host i m e).tasks[i]? =
        some ⟨PC.returned, (n : Int) + 1, false, progressLines n ++ [finishedLine]⟩ := by
  obtain ⟨hi, _⟩ := List.getElem?_eq_some.1 ht
  have h := HiddifyWRT.runTask_complete host e i hi [] n m (fun _ => by omega) (by omega) hmax hm
  rw [show HiddifyWRT.withTask e i ⟨PC.forCond, 1, false, []⟩ [] = e from
    HiddifyWRT.withTask_self e i _ ht] at h
  rw [h]
  constructor
  · simp [HiddifyWRT.withTask]
  · simpa using HiddifyWRT.withTask_task { e with cancel := none } i _ _ hi

/-- C1 witness: `NewHiddifyWRT()`, one valid submission with `iterations = 2`,
then nine statements of the task. -/
theorem C1_uncancelled_task_output_witness :
    (HiddifyWRT.runTask host64 0 9
        (run host64 [Action.submitData "submit" [("iterations", "2")]] NewHiddifyWRT)).console =
      [welcomeLine] ++ progressLines 2 ++ [finishedLine] ∧
    (HiddifyWRT.runTask host64 0 9
        (run host64 [Action.submitData "submit" [("iterations", "2")]] NewHiddifyWRT)).tasks[0]? =
      some ⟨PC.returned, ((2 : Nat) : Int) + 1, false, progressLines 2 ++ [finishedLine]⟩ :=
  C1_uncancelled_task_output host64
    (run host64 [Action.submitData "submit" [("iterations", "2")]] NewHiddifyWRT) 0 2 9
    (by decide) (by decide) (by norm_num [Host.maxInt, host64]) (by decide)

/-! ## C2 -/

/-- C2, the code at the failing input: after `NewHiddifyWRT()`, two valid
submissions, three statements of the first task (which sees its cancellation
and runs `e.cancel = nil`, wiping the second task's handle) and a third valid
submission, the second and the third task are both alive and neither was sent
a cancellation signal. -/
theorem C2_two_active_tasks :
    (run host64 [Action.submitData "submit" [("iterations", "4")],
        Action.submitData "submit" [("iterations", "4")],
        Action.task 0, Action.task 0, Action.task 0,
        Action.submitData "submit" [("iterations", "4")]] NewHiddifyWRT).activeTasks = 2 ∧
    (run host64 [Action.submitData "submit" [("iterations", "4")],
        Action.submitData "submit" [("iterations", "4")],
        Action.task 0, Action.task 0, Action.task 0,
        Action.submitData "submit" [("iterations", "4")]] NewHiddifyWRT).tasks =
      [⟨PC.caseDoneLog, 1, true, []⟩, Task.fresh, Task.fresh] := by
  decide

/-! ## C3 -/

/-- C3, the code at the failing input: after `NewHiddifyWRT()` and two valid
submissions the slot holds the second task's handle (position 1), which a
superseding submission installed, and the first task has seen its cancellation
and stands at line 39. Its next statement `e.cancel = nil` is not guarded by
any test of the occupant: afterwards the slot is empty, although it did not
hold the first task's handle and the second task is alive and un-cancelled.
The race rule says the slot must still hold the second task's handle. -/
theorem C3_stale_task_wipes_newer_handle :
    (run host64 [Action.submitData "submit" [("iterations", "4")],
        Action.submitData "submit" [("iterations", "4")],
        Action.task 0, Action.task 0] NewHiddifyWRT).cancel = some 1 ∧
    (run host64 [Action.submitData "submit" [("iterations", "4")],
        Action.submitData "submit" [("iterations", "4")],
        Action.task 0, Action.task 0] NewHiddifyWRT).tasks =
      [⟨PC.caseDone, 1, true, []⟩, Task.fresh] ∧
    (run host64 [Action.submitData "submit" [("iterations", "4")],
        Action.submitData "submit" [("iterations", "4")],
        Action.task 0, Action.task 0, Action.task 0] NewHiddifyWRT).cancel = none ∧
    (run host64 [Action.submitData "submit" [("iterations", "4")],
        Action.submitData "submit" [("iterations", "4")],
        Action.task 0, Action.task 0, Action.task 0] NewHiddifyWRT).tasks =
      [⟨PC.caseDoneLog, 1, true, []⟩, Task.fresh] ∧
    (run host64 [Action.submitData "submit" [("iterations", "4")],
        Action.submitData "submit" [("iterations", "4")],
        Action.task 0, Action.task 0, Action.task 0] NewHiddifyWRT).activeTasks = 1 := by
  decide

/-! ## C4 -/

/-- C4 as stated fails in two ways on a 64-bit host.
(a) `k = n = 1`: a task with `Count = 1` cancelled after its first (and last)
progress line appends "Background Task Finished Successfully" and no
"Background Task Canceled" line.
(b) `n = 2`, `k = 0`: a task cancelled before its first progress line, but
after the timer case of the `select` was chosen, still appends progress line
`1` before its "Background Task Canceled" line. -/
theorem C4_counterexample :
    ((run host64 [Action.submitData "submit" [("iterations", "1")],
          Action.task 0, Action.task 0, Action.task 0] NewHiddifyWRT).console =
        [welcomeLine, progressLine 1] ∧
      (run host64 [Action.submitData "submit" [("iterations", "1")],
          Action.task 0, Action.task 0, Action.task 0] NewHiddifyWRT).tasks =
        [⟨PC.forCond, 2, false, [progressLine 1]⟩] ∧
      run host64 [Action.submitData "submit" [("iterations", "1")],
          Action.task 0, Action.task 0, Action.task 0,
          Action.submitData "cancel" [],
          Action.task 0, Action.task 0, Action.task 0] NewHiddifyWRT =
        { Data := { Count := 1 }, cancel := none,
          console := [welcomeLine, progressLine 1, finishedLine],
          tasks := [⟨PC.returned, 2, true, [progressLine 1, finishedLine]⟩],
          messages := [] }) ∧
    ((run host64 [Action.submitData "submit" [("iterations", "2")],
          Action.task 0, Action.task 0] NewHiddifyWRT).console = [welcomeLine] ∧
      (run host64 [Action.submitData "submit" [("iterations", "2")],
          Action.task 0, Action.task 0] NewHiddifyWRT).tasks =
        [⟨PC.caseTimer, 1, false, []⟩] ∧
      run host64 [Action.submitData "submit" [("iterations", "2")],
          Action.task 0, Action.task 0,
          Action.submitData "cancel" [],
          Action.task 0, Action.task 0, Action.task 0, Action.task 0, Action.task 0]
          NewHiddifyWRT =
        { Data := { Count := 2 }, cancel := none,
          console := [welcomeLine, progressLine 1, canceledLine],
          tasks := [⟨PC.returned, 2, true, [progressLine 1, canceledLine]⟩],
          messages := [] }) := by
  decide

/-- A fresh task that owns the slot, stopped at the loop condition or in the
`select` of iteration `k + 1`. -/
theorem HiddifyWRT.runTask_stop_waiting (host : Host) (e : HiddifyWRT) (i n k c fuel : Nat)
    (ht : e.tasks[i]? = some Task.fresh) (hslot : e.cancel = some i)
    (hn : e.Data.Count = n) (hint : (n : Int) ≤ host.maxInt) (hk : k < n)
    (hc : c = 3 * k ∨ c = 3 * k + 1) (hf : 4 ≤ fuel) :
    (∃ pc : PC, HiddifyWRT.runTask host i c e =
        e.withTask i ⟨pc, (k : Int) + 1, false, progressLines k⟩ (progressLines k)) ∧
    (HiddifyWRT.runTask host i c e).stop.2 = none ∧
    HiddifyWRT.runTask host i fuel (HiddifyWRT.runTask host i c e).stop.1 =
      { e with cancel := none }.withTask i
        ⟨PC.returned, (k : Int) + 1, true, progressLines k ++ [canceledLine]⟩
        (progressLines k ++ [canceledLine]) := by
  obtain ⟨hi, _⟩ := List.getElem?_eq_some.1 ht
  have hi' : i < ({ e with cancel := none } : HiddifyWRT).tasks.length := hi
  have hself : HiddifyWRT.withTask e i ⟨PC.forCond, 1, false, []⟩ [] = e :=
    HiddifyWRT.withTask_self e i _ ht
  have hkC : ((k : Int) + 1) ≤ e.Data.Count := by omega
  have hloop := HiddifyWRT.runTask_loop host e i hi false [] k (fun _ => rfl)
    (fun _ => by omega) (by omega)
  rw [hself] at hloop
  have hstate : ∃ pc : PC, (pc = PC.forCond ∨ pc = PC.select) ∧
      HiddifyWRT.runTask host i c e =
        e.withTask i ⟨pc, (k : Int) + 1, false, progressLines k⟩ (progressLines k) := by
    rcases hc with rfl | rfl
    · exact ⟨PC.forCond, Or.inl rfl, by simpa using hloop⟩
    · refine ⟨PC.select, Or.inr rfl, ?_⟩
      rw [HiddifyWRT.runTask_add, hloop]
      simp [HiddifyWRT.runTask, HiddifyWRT.step_withTask, hi, hkC]
  obtain ⟨pc, hpc, hrun⟩ := hstate
  refine ⟨⟨pc, hrun⟩, ?_, ?_⟩
  · rw [hrun, HiddifyWRT.stop_withTask e i hi _ _ hslot]
  · rw [hrun, HiddifyWRT.stop_withTask e i hi _ _ hslot]
    refine HiddifyWRT.runTask_stable host i { e with cancel := none } hi _ 4 fuel _ _ _ _ ?_ hf
    rcases hpc with rfl | rfl <;>
      simp only [HiddifyWRT.runTask, HiddifyWRT.step_withTask, hi, hi', hkC, if_true]

/-- C4 (amended): for every `n ≥ 1` that is an `int` and every `k` with
`0 ≤ k < n`, if a freshly started task `i` with `Count = n` that owns the slot
runs alone and `stop` is called while it stands at the loop condition or waits
in the `select` of iteration `k + 1` (after `3 * k` or `3 * k + 1` of its
statements, when exactly the progress lines `1..k` are on the console), then
`stop` returns nil, and after four more statements and at every later moment
the task has returned and has appended exactly the progress lines `1..k`
followed by one "Background Task Canceled" line. In particular, from
`NewHiddifyWRT()`, a valid submission that sets `Count = 4` followed at once
by the cancel button yields the welcome line and one "Background Task
Canceled" line, with no progress line. -/
theorem C4_cancel_while_waiting (host : Host) (e : HiddifyWRT) (i n k c fuel : Nat)
    (ht : e.tasks[i]? = some Task.fresh) (hslot : e.cancel = some i)
    (hn : e.Data.Count = n) (hint : (n : Int) ≤ host.maxInt) (hk : k < n)
    (hc : c = 3 * k ∨ c = 3 * k + 1) (hf : 4 ≤ fuel) :
    (HiddifyWRT.runTask host i c e).console = e.console ++ progressLines k ∧
    (HiddifyWRT.runTask host i c e).stop.2 = none ∧
    (HiddifyWRT.runTask host i fuel (HiddifyWRT.runTask host i c e).stop.1).console =
      e.console ++ progressLines k ++ [canceledLine] ∧
    (HiddifyWRT.runTask host i fuel (HiddifyWRT.runTask host i c e).stop.1).tasks[i]? =
      some ⟨PC.returned, (k : Int) + 1, true, progressLines k ++ [canceledLine]⟩ ∧
    ∀ data data' : FieldMap, host.setFormData NewHiddifyWRT.Data data = ({ Count := 4 }, none) →
      (HiddifyWRT.runTask host 0 fuel
        (HiddifyWRT.SubmitData host host.ButtonCancel data'
          (HiddifyWRT.SubmitData host host.ButtonSubmit data NewHiddifyWRT).1).1).console =
        [welcomeLine, canceledLine] := by
  obtain ⟨hi, _⟩ := List.getElem?_eq_some.1 ht
  have hi' : i < ({ e with cancel := none } : HiddifyWRT).tasks.length := hi
  obtain ⟨⟨pc, hrun⟩, hnil, hfin⟩ :=
    HiddifyWRT.runTask_stop_waiting host e i n k c fuel ht hslot hn hint hk hc hf
  refine ⟨by rw [hrun]; rfl, hnil, ?_, ?_, ?_⟩
  · rw [hfin]; simp [HiddifyWRT.withTask]
  · rw [hfin]; exact HiddifyWRT.withTask_task _ i _ _ hi'
  · intro data data' hdata
    rw [HiddifyWRT.SubmitData_cancel, HiddifyWRT.SubmitData_submit, hdata]
    have h4 := (HiddifyWRT.runTask_stop_waiting host
      { Data := { Count := 4 }, cancel := some 0, console := [welcomeLine],
        tasks := [Task.fresh], messages := [] } 0 4 0 0 fuel rfl rfl rfl
      (host.four_le_maxInt) (by decide) (Or.inl rfl) hf).2.2
    simp only [HiddifyWRT.runTask] at h4
    simp only [NewHiddifyWRT, List.length_nil, List.nil_append]
    rw [h4]
    simp [HiddifyWRT.withTask, progressLines_zero]

/-- C4 witness: `NewHiddifyWRT()`, a valid submission with `iterations = 4`,
the cancel right away (`k = 0`, `c = 0`), then four statements of the task. -/
theorem C4_cancel_while_waiting_witness :
    (HiddifyWRT.runTask host64 0 4
        (HiddifyWRT.runTask host64 0 0
          (run host64 [Action.submitData "submit" [("iterations", "4")]] NewHiddifyWRT)).stop.1).console =
      [welcomeLine] ++ progressLines 0 ++ [canceledLine] :=
  (C4_cancel_while_waiting host64
    (run host64 [Action.submitData "submit" [("iterations", "4")]] NewHiddifyWRT) 0 4 0 0 4
    (by decide) (by decide) (by decide) (by decide) (by decide) (Or.inl rfl) (by decide)).2.2.1

/-! ## C5 -/

/-- C5: for every state and every field map on which `setFormData` fails with
error `err`, `SubmitData` with the submit button returns `err`, sends no
cancellation signal and starts no task (the goroutines and their contexts are
unchanged), leaves the slot `e.cancel` unchanged and appends nothing to the
console; the only effect besides what `setFormData` did to the data is the
"Invalid data" dialog. -/
theorem C5_invalid_submit (host : Host) (e : HiddifyWRT) (data : FieldMap)
    (d : HiddifyWRTData) (err : String) (h : host.setFormData e.Data data = (d, some err)) :
    (e.SubmitData host host.ButtonSubmit data).2 = some err ∧
    (e.SubmitData host host.ButtonSubmit data).1.tasks = e.tasks ∧
    (e.SubmitData host host.ButtonSubmit data).1.cancel = e.cancel ∧
    (e.SubmitData host host.ButtonSubmit data).1.console = e.console ∧
    (e.SubmitData host host.ButtonSubmit data).1.messages =
      e.messages ++ [("Invalid data", err)] := by
  rw [HiddifyWRT.SubmitData_submit, h]
  simp [HiddifyWRT.ShowMessage]

/-- C5 witness: a task is running (`iterations = 3`) and a non-numeric
`iterations` is submitted. -/
theorem C5_invalid_submit_witness :
    ((run host64 [Action.submitData "submit" [("iterations", "3")]] NewHiddifyWRT).SubmitData
        host64 "submit" [("iterations", "abc")]).2 = some "iterations: invalid syntax" ∧
    ((run host64 [Action.submitData "submit" [("iterations", "3")]] NewHiddifyWRT).SubmitData
        host64 "submit" [("iterations", "abc")]).1.tasks = [Task.fresh] ∧
    ((run host64 [Action.submitData "submit" [("iterations", "3")]] NewHiddifyWRT).SubmitData
        host64 "submit" [("iterations", "abc")]).1.cancel = some 0 ∧
    ((run host64 [Action.submitData "submit" [("iterations", "3")]] NewHiddifyWRT).SubmitData
        host64 "submit" [("iterations", "abc")]).1.console = [welcomeLine] ∧
    ((run host64 [Action.submitData "submit" [("iterations", "3")]] NewHiddifyWRT).SubmitData
        host64 "submit" [("iterations", "abc")]).1.messages =
      [] ++ [("Invalid data", "iterations: invalid syntax")] :=
  C5_invalid_submit host64
    (run host64 [Action.submitData "submit" [("iterations", "3")]] NewHiddifyWRT)
    [("iterations", "abc")] { Count := 3 } "iterations: invalid syntax" (by decide)

/-! ## C6 -/

/-- C6, the code at the failing input: after `NewHiddifyWRT()`, two valid
submissions and three statements of the first task (through line 39), the
second task (position 1) is active, its loop counter is 1, and the slot is
empty. A further valid submission then returns nil and puts the new task's
handle in the slot, but it sends no cancellation signal to the second task:
that task is still un-cancelled after the call, and run on it appends the
progress lines 1, 2, 3, 4 and "Background Task Finished Successfully", so it
emits progress lines numbered higher than the count it had reached at the
call. The claim says the old task is sent the signal and emits no such line. -/
theorem C6_active_task_not_cancelled :
    (run host64 [Action.submitData "submit" [("iterations", "4")],
        Action.submitData "submit" [("iterations", "4")],
        Action.task 0, Action.task 0, Action.task 0] NewHiddifyWRT).cancel = none ∧
    (run host64 [Action.submitData "submit" [("iterations", "4")],
        Action.submitData "submit" [("iterations", "4")],
        Action.task 0, Action.task 0, Action.task 0] NewHiddifyWRT).tasks[1]? =
      some ⟨PC.forCond, 1, false, []⟩ ∧
    ((run host64 [Action.submitData "submit" [("iterations", "4")],
        Action.submitData "submit" [("iterations", "4")],
        Action.task 0, Action.task 0, Action.task 0] NewHiddifyWRT).SubmitData host64 "submit"
        [("iterations", "4")]).2 = none ∧
    ((run host64 [Action.submitData "submit" [("iterations", "4")],
        Action.submitData "submit" [("iterations", "4")],
        Action.task 0, Action.task 0, Action.task 0] NewHiddifyWRT).SubmitData host64 "submit"
        [("iterations", "4")]).1.cancel = some 2 ∧
    ((run host64 [Action.submitData "submit" [("iterations", "4")],
        Action.submitData "submit" [("iterations", "4")],
        Action.task 0, Action.task 0, Action.task 0] NewHiddifyWRT).SubmitData host64 "submit"
        [("iterations", "4")]).1.tasks[1]? = some ⟨PC.forCond, 1, false, []⟩ ∧
    (HiddifyWRT.runTask host64 1 15
      ((run host64 [Action.submitData "submit" [("iterations", "4")],
        Action.submitData "submit" [("iterations", "4")],
        Action.task 0, Action.task 0, Action.task 0] NewHiddifyWRT).SubmitData host64 "submit"
        [("iterations", "4")]).1).tasks[1]? =
      some ⟨PC.returned, 5, false,
        [progressLine 1, progressLine 2, progressLine 3, progressLine 4, finishedLine]⟩ := by
  decide

/-! ## C7 -/

/-- C7: on every state whose slot is empty (`e.cancel = nil`), `stop`, the
cancel button of `SubmitData` and `Close` all return nil and leave the whole
state as it is, so no signal is sent and no line appended; and on every state
`Close` and the cancel button are `stop`. The freshly constructed
`NewHiddifyWRT()` has an empty slot. -/
theorem C7_cancel_without_task (host : Host) (e : HiddifyWRT) (data : FieldMap)
    (h : e.cancel = none) :
    e.stop = (e, none) ∧ e.SubmitData host host.ButtonCancel data = (e, none) ∧
    e.Close = (e, none) ∧ NewHiddifyWRT.cancel = none ∧
    ∀ e' : HiddifyWRT, e'.Close = e'.stop ∧
      e'.SubmitData host host.ButtonCancel data = e'.Close := by
  have hs : e.stop = (e, none) := by simp [HiddifyWRT.stop, h]
  refine ⟨hs, ?_, hs, rfl, fun e' => ⟨rfl, ?_⟩⟩
  · rw [HiddifyWRT.SubmitData_cancel, hs]
  · rw [HiddifyWRT.SubmitData_cancel]; rfl

/-- C7 witness: the state `NewHiddifyWRT()` that was never started. -/
theorem C7_cancel_without_task_witness :
    NewHiddifyWRT.stop = (NewHiddifyWRT, none) ∧
    NewHiddifyWRT.SubmitData host64 "cancel" [] = (NewHiddifyWRT, none) ∧
    NewHiddifyWRT.Close = (NewHiddifyWRT, none) ∧ NewHiddifyWRT.cancel = none ∧
    ∀ e' : HiddifyWRT, e'.Close = e'.stop ∧ e'.SubmitData host64 "cancel" [] = e'.Close :=
  C7_cancel_without_task host64 NewHiddifyWRT [] rfl

/-! ## C8 -/

/-- C8: `stop` is idempotent. On every state it returns nil; a second `stop`
right after the first returns nil again and changes nothing, so it sends no
second signal; the state after one or two calls has an empty slot and the
console it had before. -/
theorem C8_stop_idempotent (e : HiddifyWRT) :
    e.stop.2 = none ∧ e.stop.1.stop = (e.stop.1, none) ∧
    e.stop.1.cancel = none ∧ e.stop.1.console = e.console ∧
    e.stop.1.stop.1.tasks = e.stop.1.tasks := by
  have h1 : e.stop.2 = none := by
    unfold HiddifyWRT.stop; split <;> rfl
  have h2 : e.stop.1.cancel = none := by
    unfold HiddifyWRT.stop; split
    · rfl
    · assumption
  have h3 : e.stop.1.stop = (e.stop.1, none) := by
    generalize e.stop.1 = s at h2
    simp [HiddifyWRT.stop, h2]
  refine ⟨h1, h3, h2, ?_, by rw [h3]⟩
  unfold HiddifyWRT.stop; split
  · simp only [HiddifyWRT.cancelCtx]; split <;> rfl
  · rfl

/-! ## C9 -/

/-- C9: `SubmitData` dispatches on the button. For dialog-ok and dialog-close
it returns nil and changes nothing. For a button that is none of the four
known ones it only records the informational message and returns what the
host's `ShowMessage` returns; slot, console, data and goroutines are
unchanged. Only the submit button reads the field map and starts a task: for
any other button the result does not depend on the field map and the number
of goroutines, the data and the console stay, while the submit button with
valid data stores what `setFormData` produced, adds one goroutine and puts its
handle in the slot. The cancel button is `stop`, and so is `Close`; the other
buttons leave goroutines and slot alone. -/
theorem C9_button_dispatch (host : Host) (button : String) (data : FieldMap) (e : HiddifyWRT) :
    (button = host.ButtonDialogOk ∨ button = host.ButtonDialogClose →
      e.SubmitData host button data = (e, none)) ∧
    (button ≠ host.ButtonDialogOk → button ≠ host.ButtonDialogClose →
      button ≠ host.ButtonCancel → button ≠ host.ButtonSubmit →
      e.SubmitData host button data =
        ({ e with messages := e.messages ++
            [("Button " ++ button ++ " is pressed", "No action is defined for this button")] },
          host.ShowMessage ("Button " ++ button ++ " is pressed")
            "No action is defined for this button")) ∧
    (button ≠ host.ButtonSubmit →
      (∀ data' : FieldMap, e.SubmitData host button data' = e.SubmitData host button data) ∧
      (e.SubmitData host button data).1.tasks.length = e.tasks.length ∧
      (e.SubmitData host button data).1.Data = e.Data ∧
      (e.SubmitData host button data).1.console = e.console) ∧
    (button = host.ButtonSubmit → ∀ d : HiddifyWRTData, host.setFormData e.Data data = (d, none) →
      (e.SubmitData host button data).1.Data = d ∧
      (e.SubmitData host button data).1.tasks.length = e.tasks.length + 1 ∧
      (e.SubmitData host button data).1.cancel = some e.tasks.length) ∧
    (button = host.ButtonCancel → e.SubmitData host button data = e.stop) ∧
    (button ≠ host.ButtonCancel → button ≠ host.ButtonSubmit →
      (e.SubmitData host button data).1.tasks = e.tasks ∧
      (e.SubmitData host button data).1.cancel = e.cancel) ∧
    e.Close = e.stop := by
  have hstop : e.stop.1.tasks.length = e.tasks.length ∧ e.stop.1.Data = e.Data ∧
      e.stop.1.console = e.console := by
    unfold HiddifyWRT.stop; split
    · simp only [HiddifyWRT.cancelCtx]; split <;> simp
    · simp
  refine ⟨?_, ?_, ?_, ?_, ?_, ?_, rfl⟩
  · intro h
    simp [HiddifyWRT.SubmitData, h]
  · intro h1 h2 h3 h4
    simp [HiddifyWRT.SubmitData, HiddifyWRT.ShowMessage, h1, h2, h3, h4]
  · intro h
    by_cases h1 : button = host.ButtonDialogOk ∨ button = host.ButtonDialogClose
    · simp [HiddifyWRT.SubmitData, h1]
    · by_cases h2 : button = host.ButtonCancel
      · simp only [HiddifyWRT.SubmitData, h1, h2, if_false, if_true]
        subst h2
        simp only [h1, if_false]
        exact ⟨fun _ => trivial, hstop⟩
      · simp [HiddifyWRT.SubmitData, HiddifyWRT.ShowMessage, h, h1, h2]
  · intro h d hd
    subst h
    rw [HiddifyWRT.SubmitData_submit, hd]
    have hlen : ∀ (x : HiddifyWRT) (j : Nat), (x.cancelCtx j).tasks.length = x.tasks.length := by
      intro x j
      simp only [HiddifyWRT.cancelCtx]; split <;> simp
    have hdata : ∀ (x : HiddifyWRT) (j : Nat), (x.cancelCtx j).Data = x.Data := by
      intro x j
      simp only [HiddifyWRT.cancelCtx]; split <;> rfl
    cases hc : e.cancel <;> simp [hlen, hdata]
  · intro h
    subst h
    exact HiddifyWRT.SubmitData_cancel host data e
  · intro h1 h2
    by_cases h3 : button = host.ButtonDialogOk ∨ button = host.ButtonDialogClose
    · simp [HiddifyWRT.SubmitData, h3]
    · simp [HiddifyWRT.SubmitData, HiddifyWRT.ShowMessage, h1, h2, h3]

/-! ## C10 -/

/-- C10 as stated fails at the largest `int`: on a 64-bit host a task with
`Count = 9223372036854775807` whose cancellation signal never comes never
returns. -/
theorem C10_counterexample_maxInt :
    ¬ ∃ fuel : Nat, ∃ t : Task,
      (HiddifyWRT.runTimed host64 0 none fuel startedWithMaxInt).tasks[0]? = some t ∧
        t.pc = PC.returned := by
  rintro ⟨fuel, t, ht, hpc⟩
  obtain ⟨_, _, t', ht', _, _, h⟩ :=
    HiddifyWRT.loopsForever_runTask fuel startedWithMaxInt_loopsForever
  have : t = t' := by
    have h2 : (HiddifyWRT.runTask host64 0 fuel startedWithMaxInt).tasks[0]? = some t := ht
    rw [ht'] at h2
    exact (Option.some.inj h2).symm
  subst this
  rw [hpc] at h
  simp at h

/-- C10 (amended): for every `Count` below the largest `int` (zero and
negative values included) and every timing of the cancellation signal (never,
or after any number `c` of the task's statements), a freshly started task
returns: from some point on, what it has appended to the console is the
progress lines `1..k` for some `0 ≤ k ≤ max(Count, 0)` followed by one
terminal line, which is its last line; the terminal line is "Background Task
Finished Successfully" exactly when `k = max(Count, 0)` and "Background Task
Canceled" otherwise. -/
theorem C10_task_terminates (host : Host) (e : HiddifyWRT) (i : Nat) (timing : Option Nat)
    (ht : e.tasks[i]? = some Task.fresh) (hmax : e.Data.Count < host.maxInt) :
    ∃ k : Nat, (k : Int) ≤ max e.Data.Count 0 ∧ ∃ N : Nat, ∀ fuel : Nat, N ≤ fuel →
      (HiddifyWRT.runTimed host i timing fuel e).console =
        e.console ++ progressLines k ++
          [if (k : Int) = max e.Data.Count 0 then finishedLine else canceledLine] ∧
      ∃ t : Task, (HiddifyWRT.runTimed host i timing fuel e).tasks[i]? = some t ∧
        t.pc = PC.returned ∧
        t.out = progressLines k ++
          [if (k : Int) = max e.Data.Count 0 then finishedLine else canceledLine] := by
  obtain ⟨hi, _⟩ := List.getElem?_eq_some.1 ht
  have hself : HiddifyWRT.withTask e i ⟨PC.forCond, 1, false, []⟩ [] = e :=
    HiddifyWRT.withTask_self e i _ ht
  have hn : ((e.Data.Count.toNat : Nat) : Int) = max e.Data.Count 0 := Int.toNat_eq_max _
  generalize e.Data.Count.toNat = n at hn
  have hlo : n ≠ 0 → (n : Int) ≤ e.Data.Count := by omega
  have hhi : e.Data.Count < (n : Int) + 1 := by omega
  have hnm : (n : Int) < host.maxInt := by
    have := host.four_le_maxInt; omega
  have hi' : i < ({ e with cancel := none } : HiddifyWRT).tasks.length := hi
  cases timing with
  | none =>
    refine ⟨n, by omega, 3 * n + 3, fun fuel hf => ?_⟩
    have h := HiddifyWRT.runTask_complete host e i hi [] n fuel hlo hhi hnm hf
    rw [hself] at h
    simp only [HiddifyWRT.runTimed, h, hn, if_true]
    refine ⟨by simp [HiddifyWRT.withTask], _, HiddifyWRT.withTask_task _ i _ _ hi', rfl, ?_⟩
    simp
  | some c =>
    obtain ⟨k, hk, hrun⟩ := HiddifyWRT.runTask_cancelled_after host e i hi n hlo hhi hnm c
    refine ⟨k, by omega, 5, fun fuel hf => ?_⟩
    obtain ⟨cnt, h⟩ := hrun fuel hf
    rw [Task.fresh, hself] at h
    have hterm : HiddifyWRT.terminalLine n k =
        if (k : Int) = max e.Data.Count 0 then finishedLine else canceledLine := by
      rw [← hn]; simp [HiddifyWRT.terminalLine]
    simp only [HiddifyWRT.runTimed, h, ← hterm]
    exact ⟨by simp [HiddifyWRT.withTask], _, HiddifyWRT.withTask_task _ i _ _ hi', rfl, rfl⟩

/-- C10 witness: a task started by one valid submission with `iterations = 2`
and cancelled after two of its statements. -/
theorem C10_task_terminates_witness :
    ∃ k : Nat, (k : Int) ≤ max (2 : Int) 0 ∧ ∃ N : Nat, ∀ fuel : Nat, N ≤ fuel →
      (HiddifyWRT.runTimed host64 0 (some 2) fuel
          (run host64 [Action.submitData "submit" [("iterations", "2")]] NewHiddifyWRT)).console =
        [welcomeLine] ++ progressLines k ++
          [if (k : Int) = max (2 : Int) 0 then finishedLine else canceledLine] ∧
      ∃ t : Task, (HiddifyWRT.runTimed host64 0 (some 2) fuel
          (run host64 [Action.submitData "submit" [("iterations", "2")]] NewHiddifyWRT)).tasks[0]?
            = some t ∧
        t.pc = PC.returned ∧
        t.out = progressLines k ++
          [if (k : Int) = max (2 : Int) 0 then finishedLine else canceledLine] :=
  C10_task_terminates host64
    (run host64 [Action.submitData "submit" [("iterations", "2")]] NewHiddifyWRT) 0 (some 2)
    (by decide) (by decide)

end HiddifyExtension
